import Mathlib

/-!
Verification of the `service_crategen` code-generation engine
(`src/service_crategen/src/commands/generate/codegen/mod.rs`).

The definitions below are a shallow embedding of the Rust source.  Botocore
data types (`crate::botocore::{Shape, Member, ShapeType}`), `crate::Service`
accessors and external crates (`inflector`) are not under `src/`; where a
definition comes from the spec rather than the source its doc comment says so.
-/

namespace Rusoto

/-- Shape kinds, mirroring `crate::botocore::ShapeType` as used by the
codegen module (`Blob`, `Boolean`, `Double`, `Float`, `Integer`, `Long`,
`String`, `Timestamp`, `List`, `Map`, `Structure`). -/
inductive ShapeType where
  | Blob
  | Boolean
  | Double
  | Float
  | Integer
  | Long
  | String
  | Timestamp
  | List
  | Map
  | Structure
deriving DecidableEq, Repr

/-- Modelled from the spec: a structure member — "shape reference, required
flag, deprecated flag, optional documentation, own streaming flag"
(`crate::botocore::Member`, not under `src/`; the required flag is stored on
the owning shape as in botocore, see `Shape.required`). -/
structure Member where
  shape : String
  deprecated : Option Bool := none
  documentation : Option String := none
  streamingFlag : Option Bool := none
deriving DecidableEq, Repr

/-- Accessor `Member::streaming()`: the member's own streaming flag, defaulting to false. -/
def Member.streaming (m : Member) : Bool := m.streamingFlag = some true

/-- Modelled from the spec: a schema shape — "kind, list element shape ref,
map key/value shape refs, ordered mapping of member name to Member, flags"
(`crate::botocore::Shape`, not under `src/`).  `members` models botocore's
`BTreeMap<String, Member>` as an association list in key order. -/
structure Shape where
  shape_type : ShapeType
  member : Option Member := none
  key : Option Member := none
  value : Option Member := none
  members : Option (List (String × Member)) := none
  requiredMembers : Option (List String) := none
  exceptionFlag : Option Bool := none
  documentation : Option String := none
deriving DecidableEq, Repr

/-- Accessor `Shape::required(member_name)`: whether the member name appears in the
shape's required-member list. -/
def Shape.required (s : Shape) (member_name : String) : Bool :=
  (s.requiredMembers.getD []).contains member_name

/-- Accessor `Shape::exception()`: the exception flag, defaulting to false. -/
def Shape.exception (s : Shape) : Bool := s.exceptionFlag = some true

/-- Accessor `Shape::member_type()`: the list element shape reference (botocore
unwraps; the empty string stands for the panic case, which never resolves). -/
def Shape.member_type (s : Shape) : String := (s.member.map Member.shape).getD ""

/-- Accessor `Shape::key_type()`: the map key shape reference. -/
def Shape.key_type (s : Shape) : String := (s.key.map Member.shape).getD ""

/-- Accessor `Shape::value_type()`: the map value shape reference. -/
def Shape.value_type (s : Shape) : String := (s.value.map Member.shape).getD ""

/-- An operation's input/output/error shape reference (`operation.input.shape`). -/
structure ShapeRef where
  shape : String
deriving DecidableEq, Repr

/-- Modelled from the spec: an operation — "optional input shape ref,
optional output shape ref, ordered list of declared error shape refs". -/
structure Operation where
  input : Option ShapeRef := none
  output : Option ShapeRef := none
  errors : Option (List ShapeRef) := none
deriving DecidableEq, Repr

/-- Modelled from the spec: a Service Definition — name, protocol tag, shape
map and operation map (`crate::Service`, not under `src/`).
`serviceTypeName` and `clientTypeName` model the `service_type_name()` and
`client_type_name()` accessors, whose computation is outside this core. -/
structure Service where
  name : String
  serviceTypeName : String := ""
  clientTypeName : String := ""
  protocol : String := ""
  shapes : List (String × Shape) := []
  operations : List (String × Operation) := []
deriving Repr

/-- Accessor `Service::get_shape(name)`: look the shape up by name. -/
def Service.get_shape (svc : Service) (name : String) : Option Shape :=
  (svc.shapes.find? (fun p => p.1 == name)).map Prod.snd

/-- Accessor `Service::shape_for_member(member)`: resolve a member's shape reference. -/
def Service.shape_for_member (svc : Service) (m : Member) : Option Shape :=
  svc.get_shape m.shape

/-- Accessor `Service::shape_type_for_member(member)`. -/
def Service.shape_type_for_member (svc : Service) (m : Member) : Option ShapeType :=
  (svc.shape_for_member m).map Shape.shape_type

/-- Modelled from the spec: `util::capitalize_first` (`crate::util`, not under
`src/`) — "capitalize first letter". -/
def capitalize_first (s : String) : String :=
  match s.data with
  | [] => ""
  | c :: cs => String.mk (c.toUpper :: cs)

/-- Modelled from the spec: the external `inflector` crate's `to_snake_case`
used by `generate_field_name` — normalize an identifier to snake case
(insert an underscore before an upper-case letter that follows a lower-case
letter or digit, lower-case everything, turn separators into underscores). -/
def to_snake_case (s : String) : String :=
  String.mk (go none s.data)
where
  /-- Character-level snake-case pass; `prev` is the previously emitted character. -/
  go : Option Char → List Char → List Char
  | _, [] => []
  | prev, c :: cs =>
    if c = '-' ∨ c = ' ' then '_' :: go (some '_') cs
    else if c.isUpper then
      let tail := c.toLower :: go (some c.toLower) cs
      match prev with
      | some p => if p.isLower ∨ p.isDigit then '_' :: tail else tail
      | none => tail
    else c :: go (some c) cs

/-- Function `generate_field_name`: translate a botocore member name to a
rust-idiomatic snake-case name and escape the reserved words `return`,
`type`, `match` with a trailing underscore. -/
def generate_field_name (member_name : String) : String :=
  let name := to_snake_case member_name
  if name = "return" ∨ name = "type" ∨ name = "match" then name ++ "_" else name

/-- Models `capitalized.replace("_", "")`: remove every underscore (the
single-character-pattern, empty-replacement case of `str::replace`,
expressed as a character filter). -/
def remove_underscores (s : String) : String :=
  String.mk (s.data.filter (fun c => c ≠ '_'))

/-- Function `mutate_type_name`: capitalize (`capitalized`), strip underscores
(`without_underscores`), then apply the explicit collision-override table
(matched on the normalized name); the fallthrough arm returns the
normalized name itself. -/
def mutate_type_name (service : Service) (type_name : String) : String :=
  match remove_underscores (capitalize_first type_name) with
  | "Error" => service.serviceTypeName ++ "Error"
  | "CancelSpotFleetRequests" => "EC2CancelSpotFleetRequests"
  | "BatchStopJobRun" => "GlueBatchStopJobRun"
  | "Option" => "RDSOption"
  | "BatchDeleteImportDataError" => "DiscoveryBatchDeleteImportDataError"
  | "CreateFleetError" => "EC2CreateFleetError"
  | "BatchDescribeMergeConflictsError" => "CodeCommitBatchDescribeMergeConflictsError"
  | "BatchGetCommitsError" => "CodeCommitBatchGetCommitsError"
  | other => other

/-- Function `mutate_type_name_for_streaming`: prefix the type name with `Streaming`. -/
def mutate_type_name_for_streaming (type_name : String) : String :=
  "Streaming" ++ type_name

/-- The non-streaming arm of `get_rust_type` (the `match shape.shape_type`
under `if !streaming`).  The source's recursive calls always pass
`streaming = false`, so they recurse into this function.  The Rust function
recurses unboundedly through list/map element shapes and unwraps shape
lookups; `fuel` bounds the recursion and `none` stands for the
panicking/diverging executions. -/
def get_rust_type_shape (fuel : Nat) (service : Service) (shape_name : String)
    (shape : Shape) (for_timestamps : String) : Option String :=
  match shape.shape_type with
    | .Blob => some "bytes::Bytes"
    | .Boolean => some "bool"
    | .Double => some "f64"
    | .Float => some "f32"
    | .Integer => some "i64"
    | .Long => some "i64"
    | .String => some "String"
    | .Timestamp => some for_timestamps
    | .List =>
      match fuel with
      | 0 => none
      | fuel' + 1 =>
        match service.get_shape shape.member_type with
        | none => none
        | some elem =>
          match get_rust_type_shape fuel' service shape.member_type elem for_timestamps with
          | none => none
          | some inner => some ("Vec<" ++ inner ++ ">")
    | .Map =>
      match fuel with
      | 0 => none
      | fuel' + 1 =>
        match service.get_shape shape.key_type with
        | none => none
        | some keyShape =>
          match get_rust_type_shape fuel' service shape.key_type keyShape for_timestamps with
          | none => none
          | some k =>
            match service.get_shape shape.value_type with
            | none => none
            | some valShape =>
              match get_rust_type_shape fuel' service shape.value_type valShape for_timestamps with
              | none => none
              | some v => some ("::std::collections::HashMap<" ++ k ++ ", " ++ v ++ ">")
    | .Structure => some (mutate_type_name service shape_name)

/-- Function `get_rust_type`: map a shape to a host type expression; if `streaming`
is set, unconditionally the `Streaming`-prefixed alias name. -/
def get_rust_type (fuel : Nat) (service : Service) (shape_name : String)
    (shape : Shape) (streaming : Bool) (for_timestamps : String) : Option String :=
  if !streaming then
    get_rust_type_shape fuel service shape_name shape for_timestamps
  else
    some (mutate_type_name_for_streaming shape_name)

/-- Function `streaming_members`: the members of a shape whose own streaming flag is
set (botocore `BTreeMap::values` iterates in key order, as the list does). -/
def streaming_members (shape : Shape) : List Member :=
  ((shape.members.getD []).map Prod.snd).filter Member.streaming

/-- Function `is_streaming_shape`: some structure member anywhere in the service
references `name` as a streaming payload. -/
def is_streaming_shape (service : Service) (name : String) : Bool :=
  service.shapes.any fun p => (streaming_members p.2).any fun m => m.shape == name

/-- The four protocol generator implementations dispatched by
`generate_source` (their bodies live in sibling modules, outside this core). -/
inductive ProtocolGeneratorImpl where
  | JsonGenerator
  | QueryGenerator
  | RestJsonGenerator
  | RestXmlGenerator
deriving DecidableEq, Repr

/-- The error-type generator implementations paired with each protocol by
`generate_source`. -/
inductive ErrorTypesImpl where
  | JsonErrorTypes
  | XmlErrorTypes
  | RestJsonErrorTypes
deriving DecidableEq, Repr

/-- The dispatch performed by `generate_source`: which protocol generator and
error-type generator a service's protocol tag selects.  `none` models the
`panic!("Unknown protocol …")` arm. -/
def generate_source_dispatch (service : Service) :
    Option (ProtocolGeneratorImpl × ErrorTypesImpl) :=
  match service.protocol with
  | "json" => some (.JsonGenerator, .JsonErrorTypes)
  | "query" => some (.QueryGenerator, .XmlErrorTypes)
  | "ec2" => some (.QueryGenerator, .XmlErrorTypes)
  | "rest-json" => some (.RestJsonGenerator, .RestJsonErrorTypes)
  | "rest-xml" => some (.RestXmlGenerator, .XmlErrorTypes)
  | _ => none

/-- The `derived` trait list computed at the top of `generate_struct`:
`Default`/`Debug` always, `Clone`/`PartialEq` only when neither the struct
nor any member is streaming, then the protocol's serialize/deserialize
traits.  `serialize_trait`/`deserialize_trait` stand for the protocol
generator's trait-object methods, whose implementations live outside this
core. -/
def generate_struct_derives (shape : Shape) (streaming serialized deserialized : Bool)
    (serialize_trait deserialize_trait : Option String) : List String :=
  let derived := ["Default", "Debug"]
  let derived :=
    if !streaming && (streaming_members shape).isEmpty then
      derived ++ ["Clone", "PartialEq"]
    else derived
  let derived :=
    if serialized then
      match serialize_trait with
      | some t => derived ++ [t]
      | none => derived
    else derived
  if deserialized then
    match deserialize_trait with
    | some t => derived ++ [t]
    | none => derived
  else derived

/-- Modelled from the spec: `crate::doco::Item` ("carry documentation through
verbatim"; documentation text formatting is out of scope). -/
def doco_item (docs : String) : String := docs

/-- The serde attribute pushed for blob members (string as in the source). -/
def serde_blob_attr : String :=
  "#[serde(\n    deserialize_with=\"::rusoto_core::serialization::SerdeBlob::deserialize_blob\",\n    serialize_with=\"::rusoto_core::serialization::SerdeBlob::serialize_blob\",\n    default,\n)]"

/-- The serde attribute pushed for members that are lists of blobs. -/
def serde_blob_list_attr : String :=
  "#[serde(\n    deserialize_with=\"::rusoto_core::serialization::SerdeBlobList::deserialize_blob_list\",\n    serialize_with=\"::rusoto_core::serialization::SerdeBlobList::serialize_blob_list\",\n    default,\n)]"

/-- The field-declaration line pushed at the end of each `generate_struct_fields`
iteration: the `if`/`else if` chain of the source, including the operator
precedence of `a && b && c || d` as `(a && b && c) || d`. -/
def field_decl (service : Service) (shape : Shape) (shape_name member_name rs_type : String) :
    String :=
  let name := generate_field_name member_name
  if shape_name = rs_type then
    if shape.required member_name then
      "pub " ++ name ++ ": Box<" ++ rs_type ++ ">,"
    else if name = "type" then
      "pub aws_" ++ name ++ ": Box<Option<" ++ rs_type ++ ">>,"
    else
      "pub " ++ name ++ ": Box<Option<" ++ rs_type ++ ">>,"
  else
    if (service.name = "CodePipeline" ∧ shape_name = "ActionRevision"
          ∧ name = "revision_change_id") ∨ name = "created" then
      "pub " ++ name ++ ": Option<" ++ rs_type ++ ">,"
    else if service.name = "Amazon Lex Runtime Service" ∧ shape_name = "PostTextResponse"
          ∧ name = "slots" then
      "pub " ++ name ++ ": Option<::std::collections::HashMap<String, Option<String>>>,"
    else if shape.required member_name then
      "pub " ++ name ++ ": " ++ rs_type ++ ","
    else if name = "type" then
      "pub aws_" ++ name ++ ": Option<" ++ rs_type ++ ">,"
    else
      "pub " ++ name ++ ": Option<" ++ rs_type ++ ">,"

/-- One iteration of the `filter_map` in `generate_struct_fields`: the lines
pushed for a single member.  The outer `Option` is `none` when the source
would panic (an unresolvable member shape or unbounded type recursion); the
inner value is `none` when the member is deprecated and dropped.
`timestamp_type` stands for `protocol_generator.timestamp_type()`.
The final `if`/`else if` chain mirrors the source, including the operator
precedence of `a && b && c || d` as `(a && b && c) || d`. -/
def member_field_entry (service : Service) (shape : Shape) (shape_name : String)
    (serde_attrs : Bool) (timestamp_type : String) (fuel : Nat)
    (member_name : String) (member : Member) : Option (Option (List String)) :=
  if member.deprecated = some true then some none
  else
    match service.shape_for_member member with
    | none => none
    | some member_shape =>
      match get_rust_type fuel service member.shape member_shape member.streaming timestamp_type with
      | none => none
      | some rs_type =>
        let docLines : List String :=
          match member.documentation with
          | some docs => [doco_item docs]
          | none => []
        let serdeLines : List String :=
          if serde_attrs then
            ["#[serde(rename=\"" ++ member_name ++ "\")]"]
            ++ (if member_shape.shape_type = ShapeType.Blob then [serde_blob_attr]
                else if member_shape.shape_type = ShapeType.List then
                  match member_shape.member with
                  | some list_element_member =>
                    match service.shape_type_for_member list_element_member with
                    | some t => if t = ShapeType.Blob then [serde_blob_list_attr] else []
                    | none => []
                  | none => []
                else [])
            ++ (if !(shape.required member_name) then
                  ["#[serde(skip_serializing_if=\"Option::is_none\")]"]
                else [])
          else []
        some (some (docLines ++ serdeLines
          ++ [field_decl service shape shape_name member_name rs_type]))

/-- Function `generate_struct_fields`: the member field declarations, joined with
newlines.  `none` propagates a panicking member. -/
def generate_struct_fields (service : Service) (shape : Shape) (shape_name : String)
    (serde_attrs : Bool) (timestamp_type : String) (fuel : Nat) : Option String :=
  match (shape.members.getD []).mapM
      (fun p => member_field_entry service shape shape_name serde_attrs timestamp_type fuel p.1 p.2) with
  | none => none
  | some entries =>
    some (String.intercalate "\n" ((entries.filterMap id).map (String.intercalate "\n")))

/-- Shape lookup in the raw shape map (the list form of `Service::get_shape`). -/
def lookupShape (shapes : List (String × Shape)) (name : String) : Option Shape :=
  (shapes.find? (fun p => p.1 == name)).map Prod.snd

/-- Modelled from the spec: the structural children visited by
`Service::visit_shapes` (`crate::Service`, not under `src/`) — "structurally
visit list element shapes, map key/value shapes, and structure member
shapes". -/
def childRefs (s : Shape) : List String :=
  match s.shape_type with
  | .List => (s.member.map Member.shape).toList
  | .Map => (s.key.map Member.shape).toList ++ (s.value.map Member.shape).toList
  | .Structure => (s.members.getD []).map (fun p => p.2.shape)
  | _ => []

/-- The names of the shape map (used only for the termination measure). -/
def shapeNames (shapes : List (String × Shape)) : Finset String :=
  (shapes.map Prod.fst).toFinset

/-- Modelled from the spec: the worklist form of `Service::visit_shapes`
driven by the visitor in `find_shapes_to_generate` — "recording every shape
name visited exactly once (a visited-set guard makes the traversal safe over
cyclic shape graphs — visiting an already-seen shape is a no-op)".
An unresolvable reference is skipped (the spec makes it fatal; it records
nothing either way). -/
def visitShapes (shapes : List (String × Shape)) :
    List String → List String → List String
  | [], visited => visited
  | n :: rest, visited =>
    if n ∈ visited then visitShapes shapes rest visited
    else
      match h : lookupShape shapes n with
      | none => visitShapes shapes rest visited
      | some sh => visitShapes shapes (childRefs sh ++ rest) (n :: visited)
termination_by pending visited =>
  ((shapeNames shapes \ visited.toFinset).card, pending.length)
decreasing_by
  · apply Prod.Lex.right
    simp
  · apply Prod.Lex.right
    simp
  · apply Prod.Lex.left
    have hn : n ∈ shapeNames shapes := by
      unfold lookupShape at h
      rcases Option.map_eq_some'.1 h with ⟨p, hfind, _⟩
      have hp := List.find?_some hfind
      have hmem := List.mem_of_find?_eq_some hfind
      simp only [beq_iff_eq] at hp
      subst hp
      simp only [shapeNames, List.mem_toFinset]
      exact List.mem_map_of_mem Prod.fst hmem
    have hnotv : n ∉ visited := by assumption
    have hmem : n ∈ shapeNames shapes \ visited.toFinset := by
      simp [Finset.mem_sdiff, hn, List.mem_toFinset, hnotv]
    calc (shapeNames shapes \ (n :: visited).toFinset).card
        = ((shapeNames shapes \ visited.toFinset).erase n).card := by
          congr 1
          rw [List.toFinset_cons, Finset.sdiff_insert]
      _ < (shapeNames shapes \ visited.toFinset).card :=
          Finset.card_erase_lt_of_mem hmem

/-- The seed references contributed by one operation in
`find_shapes_to_generate`: input, output, then declared errors. -/
def Operation.seedRefs (op : Operation) : List String :=
  (op.input.map ShapeRef.shape).toList ++ (op.output.map ShapeRef.shape).toList
    ++ (op.errors.getD []).map ShapeRef.shape

/-- The `for operation in service.operations().values()` loop of
`find_shapes_to_generate`, threading the shared visited set. -/
def collectShapes (shapes : List (String × Shape))
    (ops : List (String × Operation)) (acc : List String) : List String :=
  ops.foldl (fun a p => visitShapes shapes p.2.seedRefs a) acc

/-- Function `find_shapes_to_generate`: every shape name visited, as the sorted
unique sequence a `BTreeSet<String>` iterates in. -/
def find_shapes_to_generate (service : Service) : List String :=
  (collectShapes service.shapes service.operations []).toFinset.sort (· ≤ ·)

/-- The decision made for each reachable shape inside the `generate_types`
loop: whether an ordinary `pub struct` is emitted for it (exception shapes
are skipped outside Kinesis; only structure shapes whose mutated type name
is not `String` get a struct). -/
def struct_emitted_for (service : Service) (name : String) : Bool :=
  match service.get_shape name with
  | none => false
  | some shape =>
    if shape.exception && service.name != "Kinesis" then false
    else shape.shape_type == ShapeType.Structure
          && mutate_type_name service name != "String"

/-- The shape names for which `generate_types` emits an ordinary struct. -/
def generated_struct_types (service : Service) : List String :=
  (find_shapes_to_generate service).filter (struct_emitted_for service)

/-! ## Reachability specification for `find_shapes_to_generate` -/

/-- Relation `Reach shapes a b`: shape name `b` is reachable from `a` through zero or
more structural child steps (list element, map key/value, structure member). -/
inductive Reach (shapes : List (String × Shape)) : String → String → Prop where
  | refl (n : String) : Reach shapes n n
  | step {a b c : String} {sh : Shape} :
      lookupShape shapes a = some sh → b ∈ childRefs sh →
      Reach shapes b c → Reach shapes a c

/-- All seed references of all operations, in traversal order. -/
def seedList (service : Service) : List String :=
  (service.operations.map (fun p => p.2.seedRefs)).flatten

/-- The visited set is closed under resolvable structural children. -/
def ClosedUnder (shapes : List (String × Shape)) (v : List String) : Prop :=
  ∀ x ∈ v, ∀ sh, lookupShape shapes x = some sh →
    ∀ c ∈ childRefs sh, (lookupShape shapes c).isSome → c ∈ v

/-! ## Concrete fixtures used by counterexamples and witnesses -/

/-- A plain string shape. -/
def stringShape : Shape := { shape_type := .String }

/-- A plain blob shape. -/
def blobShape : Shape := { shape_type := .Blob }

/-- A (required) member named `created` in the fixtures, of string type. -/
def createdMember : Member := { shape := "WidgetString" }

/-- A structure shape `Widget` whose only member `created` is required. -/
def widgetShape : Shape :=
  { shape_type := .Structure, members := some [("created", createdMember)],
    requiredMembers := some ["created"] }

/-- A member literally named `type` in the fixtures, of string type. -/
def typeMember : Member := { shape := "WidgetString" }

/-- A structure shape holding the member named `type`. -/
def typeHolderShape : Shape :=
  { shape_type := .Structure, members := some [("type", typeMember)] }

/-- A small fixture service named `Widgets` (not `CodePipeline`, not `Glue`). -/
def widgetsSvc : Service :=
  { name := "Widgets", serviceTypeName := "Widgets",
    shapes := [("Widget", widgetShape), ("WidgetString", stringShape)] }

/-- Members realizing a two-shape reference cycle `A -> B -> A`. -/
def refBMember : Member := { shape := "B" }

/-- Member of the mutual-recursion fixture referring back to `A`. -/
def refAMember : Member := { shape := "A" }

/-- Structure shape `A`, whose member `b` is typed `B`. -/
def cycleShapeA : Shape := { shape_type := .Structure, members := some [("b", refBMember)] }

/-- Structure shape `B`, whose member `a` is typed `A`. -/
def cycleShapeB : Shape := { shape_type := .Structure, members := some [("a", refAMember)] }

/-- A service whose shapes `A` and `B` form a transitive reference cycle. -/
def cycleSvc : Service :=
  { name := "Widgets", serviceTypeName := "Widgets",
    shapes := [("A", cycleShapeA), ("B", cycleShapeB)] }

/-- A member of `TreeNode` typed as `TreeNode` itself (direct self-reference). -/
def childMember : Member := { shape := "TreeNode" }

/-- A directly self-referential structure shape. -/
def treeShape : Shape := { shape_type := .Structure, members := some [("child", childMember)] }

/-- Service holding the directly self-referential shape. -/
def treeSvc : Service :=
  { name := "Widgets", serviceTypeName := "Widgets", shapes := [("TreeNode", treeShape)] }

/-- A service whose protocol tag is `ec2`. -/
def ec2Svc : Service := { name := "EC2", protocol := "ec2" }

/-- A service whose protocol tag is `query`. -/
def querySvc : Service := { name := "SQS", protocol := "query" }

/-- A service whose protocol tag is `json`. -/
def jsonSvc : Service := { name := "Kinesis", protocol := "json" }

/-- A service whose protocol tag is `rest-json`. -/
def restJsonSvc : Service := { name := "Lambda", protocol := "rest-json" }

/-- A service whose protocol tag is `rest-xml`. -/
def restXmlSvc : Service := { name := "S3", protocol := "rest-xml" }

/-- An exception-flagged structure shape reachable from an operation input. -/
def boomShape : Shape := { shape_type := .Structure, exceptionFlag := some true }

/-- A `Kinesis` service whose single reachable shape is exception-flagged. -/
def kinesisSvc : Service :=
  { name := "Kinesis", serviceTypeName := "Kinesis",
    shapes := [("Boom", boomShape)],
    operations := [("Op", { input := some ⟨"Boom"⟩ })] }

/-- The same shape graph owned by a service that is not `Kinesis`. -/
def nonKinesisSvc : Service :=
  { name := "Widgets", serviceTypeName := "Widgets",
    shapes := [("Boom", boomShape)],
    operations := [("Op", { input := some ⟨"Boom"⟩ })] }

/-- A member marked streaming, referencing the `Payload` shape. -/
def streamingMember : Member := { shape := "Payload", streamingFlag := some true }

/-- A structure shape with a streaming member. -/
def streamHolderShape : Shape :=
  { shape_type := .Structure, members := some [("payload", streamingMember)] }

/-- A service in which shape `Payload` is referenced as a streaming payload. -/
def streamSvc : Service :=
  { name := "S3", serviceTypeName := "S3",
    shapes := [("Holder", streamHolderShape), ("Payload", blobShape)] }

theorem Reach.src_isSome {shapes : List (String × Shape)} {a b : String}
    (h : Reach shapes a b) (hb : (lookupShape shapes b).isSome) :
    (lookupShape shapes a).isSome := by
  cases h with
  | refl => exact hb
  | step hlk _ _ => simp [hlk]

theorem visit_subset {shapes : List (String × Shape)}
    (pending visited : List String) :
    ∀ x ∈ visited, x ∈ visitShapes shapes pending visited := by
  induction pending, visited using visitShapes.induct shapes with
  | case1 visited => simp [visitShapes]
  | case2 n rest visited hmem ih =>
    intro x hx
    rw [visitShapes, if_pos hmem]
    exact ih x hx
  | case3 n rest visited hmem hlk ih =>
    intro x hx
    rw [visitShapes, if_neg hmem, hlk]
    exact ih x hx
  | case4 n rest visited hmem sh hlk ih =>
    intro x hx
    rw [visitShapes, if_neg hmem, hlk]
    exact ih x (List.mem_cons_of_mem n hx)

theorem visit_isSome {shapes : List (String × Shape)}
    (pending visited : List String)
    (hv : ∀ x ∈ visited, (lookupShape shapes x).isSome) :
    ∀ x ∈ visitShapes shapes pending visited, (lookupShape shapes x).isSome := by
  induction pending, visited using visitShapes.induct shapes with
  | case1 visited => simpa [visitShapes] using hv
  | case2 n rest visited hmem ih =>
    rw [visitShapes, if_pos hmem]; exact ih hv
  | case3 n rest visited hmem hlk ih =>
    rw [visitShapes, if_neg hmem, hlk]; exact ih hv
  | case4 n rest visited hmem sh hlk ih =>
    rw [visitShapes, if_neg hmem, hlk]
    refine ih ?_
    intro x hx
    rcases List.mem_cons.1 hx with rfl | hx
    · simp [hlk]
    · exact hv x hx

theorem visit_sound {shapes : List (String × Shape)}
    (pending visited : List String) :
    ∀ m ∈ visitShapes shapes pending visited,
      m ∈ visited ∨ ∃ p ∈ pending, Reach shapes p m := by
  induction pending, visited using visitShapes.induct shapes with
  | case1 visited => simp [visitShapes]
  | case2 n rest visited hmem ih =>
    intro m hm
    rw [visitShapes, if_pos hmem] at hm
    rcases ih m hm with h | ⟨p, hp, hr⟩
    · exact Or.inl h
    · exact Or.inr ⟨p, List.mem_cons_of_mem n hp, hr⟩
  | case3 n rest visited hmem hlk ih =>
    intro m hm
    rw [visitShapes, if_neg hmem, hlk] at hm
    rcases ih m hm with h | ⟨p, hp, hr⟩
    · exact Or.inl h
    · exact Or.inr ⟨p, List.mem_cons_of_mem n hp, hr⟩
  | case4 n rest visited hmem sh hlk ih =>
    intro m hm
    rw [visitShapes, if_neg hmem, hlk] at hm
    rcases ih m hm with h | ⟨p, hp, hr⟩
    · rcases List.mem_cons.1 h with rfl | h
      · exact Or.inr ⟨m, List.mem_cons_self m rest, Reach.refl m⟩
      · exact Or.inl h
    · rcases List.mem_append.1 hp with hp | hp
      · exact Or.inr ⟨n, List.mem_cons_self n rest, Reach.step hlk hp hr⟩
      · exact Or.inr ⟨p, List.mem_cons_of_mem n hp, hr⟩

theorem visit_closed {shapes : List (String × Shape)}
    (pending visited : List String)
    (hI : ∀ x ∈ visited, ∀ sh, lookupShape shapes x = some sh →
      ∀ c ∈ childRefs sh, (lookupShape shapes c).isSome → c ∈ visited ∨ c ∈ pending) :
    ClosedUnder shapes (visitShapes shapes pending visited) := by
  induction pending, visited using visitShapes.induct shapes with
  | case1 visited =>
    rw [visitShapes]
    intro x hx sh hsh c hc hres
    rcases hI x hx sh hsh c hc hres with h | h
    · exact h
    · exact absurd h (List.not_mem_nil c)
  | case2 n rest visited hmem ih =>
    rw [visitShapes, if_pos hmem]
    refine ih ?_
    intro x hx sh hsh c hc hres
    rcases hI x hx sh hsh c hc hres with h | h
    · exact Or.inl h
    · rcases List.mem_cons.1 h with rfl | h
      · exact Or.inl hmem
      · exact Or.inr h
  | case3 n rest visited hmem hlk ih =>
    rw [visitShapes, if_neg hmem, hlk]
    refine ih ?_
    intro x hx sh hsh c hc hres
    rcases hI x hx sh hsh c hc hres with h | h
    · exact Or.inl h
    · rcases List.mem_cons.1 h with rfl | h
      · rw [hlk] at hres; simp at hres
      · exact Or.inr h
  | case4 n rest visited hmem sh hlk ih =>
    rw [visitShapes, if_neg hmem, hlk]
    refine ih ?_
    intro x hx sh' hsh' c hc hres
    rcases List.mem_cons.1 hx with rfl | hx
    · rw [hlk] at hsh'
      injection hsh' with hsh'
      subst hsh'
      exact Or.inr (List.mem_append.2 (Or.inl hc))
    · rcases hI x hx sh' hsh' c hc hres with h | h
      · exact Or.inl (List.mem_cons_of_mem n h)
      · rcases List.mem_cons.1 h with rfl | h
        · exact Or.inl (List.mem_cons_self c visited)
        · exact Or.inr (List.mem_append.2 (Or.inr h))

theorem visit_pending_mem {shapes : List (String × Shape)}
    (pending visited : List String) :
    ∀ p ∈ pending, (lookupShape shapes p).isSome →
      p ∈ visitShapes shapes pending visited := by
  induction pending, visited using visitShapes.induct shapes with
  | case1 visited => simp
  | case2 n rest visited hmem ih =>
    intro p hp hres
    rw [visitShapes, if_pos hmem]
    rcases List.mem_cons.1 hp with rfl | hp
    · exact visit_subset rest visited p hmem
    · exact ih p hp hres
  | case3 n rest visited hmem hlk ih =>
    intro p hp hres
    rw [visitShapes, if_neg hmem, hlk]
    rcases List.mem_cons.1 hp with rfl | hp
    · rw [hlk] at hres; simp at hres
    · exact ih p hp hres
  | case4 n rest visited hmem sh hlk ih =>
    intro p hp hres
    rw [visitShapes, if_neg hmem, hlk]
    rcases List.mem_cons.1 hp with rfl | hp
    · exact visit_subset _ _ p (List.mem_cons_self p visited)
    · exact ih p (List.mem_append.2 (Or.inr hp)) hres

theorem closed_reach_mem {shapes : List (String × Shape)} {v : List String}
    (hcl : ClosedUnder shapes v) {a m : String} (h : Reach shapes a m)
    (hm : (lookupShape shapes m).isSome) (ha : a ∈ v) : m ∈ v := by
  induction h with
  | refl => exact ha
  | step hlk hc hr ih =>
    rename_i a b c sh
    have hb : (lookupShape shapes b).isSome := hr.src_isSome hm
    exact ih hm (hcl a ha sh hlk b hc hb)

theorem collect_subset (shapes : List (String × Shape))
    (ops : List (String × Operation)) (acc : List String) :
    ∀ x ∈ acc, x ∈ collectShapes shapes ops acc := by
  induction ops generalizing acc with
  | nil => simp [collectShapes]
  | cons op rest ih =>
    intro x hx
    rw [collectShapes, List.foldl_cons]
    exact ih _ x (visit_subset _ _ x hx)

theorem collect_isSome (shapes : List (String × Shape))
    (ops : List (String × Operation)) (acc : List String)
    (hv : ∀ x ∈ acc, (lookupShape shapes x).isSome) :
    ∀ x ∈ collectShapes shapes ops acc, (lookupShape shapes x).isSome := by
  induction ops generalizing acc with
  | nil => simpa [collectShapes] using hv
  | cons op rest ih =>
    rw [collectShapes, List.foldl_cons]
    exact ih _ (visit_isSome _ _ hv)

theorem collect_closed (shapes : List (String × Shape))
    (ops : List (String × Operation)) (acc : List String)
    (hcl : ClosedUnder shapes acc) :
    ClosedUnder shapes (collectShapes shapes ops acc) := by
  induction ops generalizing acc with
  | nil => simpa [collectShapes] using hcl
  | cons op rest ih =>
    rw [collectShapes, List.foldl_cons]
    refine ih _ (visit_closed _ _ ?_)
    intro x hx sh hsh c hc hres
    exact Or.inl (hcl x hx sh hsh c hc hres)

theorem collect_sound (shapes : List (String × Shape))
    (ops : List (String × Operation)) (acc : List String) :
    ∀ m ∈ collectShapes shapes ops acc,
      m ∈ acc ∨ ∃ p ∈ (ops.map (fun q => q.2.seedRefs)).flatten, Reach shapes p m := by
  induction ops generalizing acc with
  | nil => simp [collectShapes]
  | cons op rest ih =>
    intro m hm
    rw [collectShapes, List.foldl_cons] at hm
    rcases ih _ m hm with h | ⟨p, hp, hr⟩
    · rcases visit_sound _ _ m h with h | ⟨p, hp, hr⟩
      · exact Or.inl h
      · refine Or.inr ⟨p, ?_, hr⟩
        simp only [List.map_cons, List.flatten_cons, List.mem_append]
        exact Or.inl hp
    · refine Or.inr ⟨p, ?_, hr⟩
      simp only [List.map_cons, List.flatten_cons, List.mem_append]
      exact Or.inr hp

theorem collect_complete (shapes : List (String × Shape))
    (ops : List (String × Operation)) (acc : List String)
    (hcl : ClosedUnder shapes acc)
    {s m : String} (hs : s ∈ (ops.map (fun q => q.2.seedRefs)).flatten)
    (hr : Reach shapes s m) (hm : (lookupShape shapes m).isSome) :
    m ∈ collectShapes shapes ops acc := by
  induction ops generalizing acc with
  | nil => simp at hs
  | cons op rest ih =>
    rw [collectShapes, List.foldl_cons]
    simp only [List.map_cons, List.flatten_cons, List.mem_append] at hs
    rcases hs with hs | hs
    · have hsres : (lookupShape shapes s).isSome := hr.src_isSome hm
      have hsmem : s ∈ visitShapes shapes op.2.seedRefs acc :=
        visit_pending_mem _ _ s hs hsres
      have hcl' : ClosedUnder shapes (visitShapes shapes op.2.seedRefs acc) := by
        refine visit_closed _ _ ?_
        intro x hx sh hsh c hc hres
        exact Or.inl (hcl x hx sh hsh c hc hres)
      have hmmem : m ∈ visitShapes shapes op.2.seedRefs acc :=
        closed_reach_mem hcl' hr hm hsmem
      exact collect_subset shapes rest _ m hmmem
    · refine ih _ ?_ hs
      refine visit_closed _ _ ?_
      intro x hx sh hsh c hc hres
      exact Or.inl (hcl x hx sh hsh c hc hres)

/-- C6 -- `find_shapes_to_generate` returns the set of shape names
transitively reachable from the operations' input, output and declared-error
shape references through list element, map key/value and structure member
shapes, each recorded exactly once, in strictly increasing (lexicographic)
order; the traversal is a total function, hence terminating and
deterministic, even on cyclic shape graphs. -/
theorem find_shapes_to_generate_correct (service : Service) :
    (find_shapes_to_generate service).Sorted (· < ·) ∧
    ∀ m, m ∈ find_shapes_to_generate service ↔
      ∃ s ∈ seedList service,
        Reach service.shapes s m ∧ (lookupShape service.shapes m).isSome := by
  constructor
  · exact Finset.sort_sorted_lt _
  · intro m
    rw [find_shapes_to_generate, Finset.mem_sort, List.mem_toFinset]
    constructor
    · intro hm
      have hsound := collect_sound service.shapes service.operations [] m hm
      rcases hsound with h | ⟨p, hp, hr⟩
      · exact absurd h (List.not_mem_nil m)
      · refine ⟨p, ?_, hr, ?_⟩
        · simpa [seedList] using hp
        · refine collect_isSome service.shapes service.operations [] ?_ m hm
          intro x hx
          exact absurd hx (List.not_mem_nil x)
    · rintro ⟨s, hs, hr, hm⟩
      refine collect_complete service.shapes service.operations [] ?_ ?_ hr hm
      · intro x hx
        exact absurd hx (List.not_mem_nil x)
      · simpa [seedList] using hs

/-! ## Helper lemmas about field generation -/

theorem generate_field_name_ne_type (s : String) : generate_field_name s ≠ "type" := by
  unfold generate_field_name
  by_cases h : to_snake_case s = "return" ∨ to_snake_case s = "type" ∨ to_snake_case s = "match"
  · rw [if_pos h]
    rcases h with h | h | h <;> rw [h] <;> decide
  · rw [if_neg h]
    intro hc
    exact h (Or.inr (Or.inl hc))

theorem generate_field_name_of_snake_type {s : String} (h : to_snake_case s = "type") :
    generate_field_name s = "type_" := by
  unfold generate_field_name
  rw [h]
  decide

theorem member_field_entry_eq_some {service : Service} {shape : Shape}
    {shape_name : String} {serde_attrs : Bool} {timestamp_type : String} {fuel : Nat}
    {member_name : String} {member : Member} {lines : List String}
    (h : member_field_entry service shape shape_name serde_attrs timestamp_type fuel
          member_name member = some (some lines)) :
    ∃ ms rs, service.shape_for_member member = some ms ∧
      get_rust_type fuel service member.shape ms member.streaming timestamp_type = some rs ∧
      (serde_attrs = true → ("#[serde(rename=\"" ++ member_name ++ "\")]") ∈ lines) ∧
      lines.getLast? = some (field_decl service shape shape_name member_name rs) := by
  unfold member_field_entry at h
  split at h
  · simp at h
  · split at h
    · simp at h
    · rename_i ms hms
      split at h
      · simp at h
      · rename_i rs hrs
        refine ⟨ms, rs, hms, hrs, ?_, ?_⟩
        · intro hsa
          subst hsa
          simp only [Option.some.injEq] at h
          subst h
          simp [List.mem_append]
        · simp only [Option.some.injEq] at h
          subst h
          rw [List.getLast?_concat]

theorem field_decl_type_escape (service : Service) (shape : Shape)
    (shape_name member_name rs : String) (hsnake : to_snake_case member_name = "type") :
    ∃ rest, field_decl service shape shape_name member_name rs = "pub type_: " ++ rest := by
  have hname := generate_field_name_of_snake_type hsnake
  unfold field_decl
  rw [hname]
  by_cases hself : shape_name = rs
  · rw [if_pos hself]
    by_cases hreq : shape.required member_name = true
    · rw [if_pos hreq]
      exact ⟨"Box<" ++ rs ++ ">,", by apply String.ext; simp [String.data_append]⟩
    · rw [if_neg hreq, if_neg (by decide : ¬("type_" : String) = "type")]
      exact ⟨"Box<Option<" ++ rs ++ ">>,", by apply String.ext; simp [String.data_append]⟩
  · rw [if_neg hself]
    rw [if_neg ?hc1]
    case hc1 =>
      rintro (⟨-, -, hx⟩ | hx) <;> exact absurd hx (by decide)
    rw [if_neg ?hc2]
    case hc2 =>
      rintro ⟨-, -, hx⟩
      exact absurd hx (by decide)
    by_cases hreq : shape.required member_name = true
    · rw [if_pos hreq]
      exact ⟨rs ++ ",", by apply String.ext; simp [String.data_append]⟩
    · rw [if_neg hreq, if_neg (by decide : ¬("type_" : String) = "type")]
      exact ⟨"Option<" ++ rs ++ ">,", by apply String.ext; simp [String.data_append]⟩

/-! ## Claim theorems -/

/-- C8 -- for every shape, shape name and timestamp representation, calling
`get_rust_type` with the streaming flag true returns the byte-stream alias
name, the shape name prefixed with `Streaming`, regardless of the shape's
structural kind. -/
theorem get_rust_type_streaming_precedence (fuel : Nat) (service : Service)
    (shape_name : String) (shape : Shape) (for_timestamps : String) :
    get_rust_type fuel service shape_name shape true for_timestamps
        = some (mutate_type_name_for_streaming shape_name) ∧
    mutate_type_name_for_streaming shape_name = "Streaming" ++ shape_name :=
  ⟨rfl, rfl⟩

/-- C9 -- `generate_source` produces a generator pairing exactly for the
five recognized protocol tags; every other tag hits the `panic!` arm
(modelled as `none`): no fallback generator, no output. -/
theorem generate_source_dispatch_recognized (service : Service) :
    (generate_source_dispatch service).isSome = true ↔
      service.protocol ∈ ["json", "query", "ec2", "rest-json", "rest-xml"] := by
  unfold generate_source_dispatch
  split <;> simp_all

/-- C5 counterexample -- the `ec2` protocol tag selects exactly the same
`QueryGenerator`/`XmlErrorTypes` pairing as the plain `query` tag, not a
distinct implementation. -/
theorem generate_source_dispatch_ec2_shares_query :
    generate_source_dispatch ec2Svc = generate_source_dispatch querySvc ∧
    generate_source_dispatch ec2Svc
      = some (ProtocolGeneratorImpl.QueryGenerator, ErrorTypesImpl.XmlErrorTypes) := by
  constructor <;> rfl

/-- C5 amended -- `generate_source` dispatches `json`, `rest-json` and
`rest-xml` to pairwise distinct generator implementations, while `query` and
`ec2` both select the one `QueryGenerator` (with XML error types). -/
theorem generate_source_dispatch_families (service : Service) :
    (service.protocol = "json" →
      generate_source_dispatch service
        = some (ProtocolGeneratorImpl.JsonGenerator, ErrorTypesImpl.JsonErrorTypes)) ∧
    (service.protocol = "query" ∨ service.protocol = "ec2" →
      generate_source_dispatch service
        = some (ProtocolGeneratorImpl.QueryGenerator, ErrorTypesImpl.XmlErrorTypes)) ∧
    (service.protocol = "rest-json" →
      generate_source_dispatch service
        = some (ProtocolGeneratorImpl.RestJsonGenerator, ErrorTypesImpl.RestJsonErrorTypes)) ∧
    (service.protocol = "rest-xml" →
      generate_source_dispatch service
        = some (ProtocolGeneratorImpl.RestXmlGenerator, ErrorTypesImpl.XmlErrorTypes)) ∧
    ([ProtocolGeneratorImpl.JsonGenerator, ProtocolGeneratorImpl.QueryGenerator,
      ProtocolGeneratorImpl.RestJsonGenerator, ProtocolGeneratorImpl.RestXmlGenerator]).Nodup := by
  refine ⟨?_, ?_, ?_, ?_, by decide⟩
  · intro h; simp [generate_source_dispatch, h]
  · rintro (h | h) <;> simp [generate_source_dispatch, h]
  · intro h; simp [generate_source_dispatch, h]
  · intro h; simp [generate_source_dispatch, h]

/-- C5 witness -- the dispatch mapping evaluated at one concrete service per
protocol tag. -/
theorem generate_source_dispatch_families_witness :
    generate_source_dispatch jsonSvc
      = some (ProtocolGeneratorImpl.JsonGenerator, ErrorTypesImpl.JsonErrorTypes) ∧
    generate_source_dispatch querySvc
      = some (ProtocolGeneratorImpl.QueryGenerator, ErrorTypesImpl.XmlErrorTypes) ∧
    generate_source_dispatch ec2Svc
      = some (ProtocolGeneratorImpl.QueryGenerator, ErrorTypesImpl.XmlErrorTypes) ∧
    generate_source_dispatch restJsonSvc
      = some (ProtocolGeneratorImpl.RestJsonGenerator, ErrorTypesImpl.RestJsonErrorTypes) ∧
    generate_source_dispatch restXmlSvc
      = some (ProtocolGeneratorImpl.RestXmlGenerator, ErrorTypesImpl.XmlErrorTypes) :=
  ⟨(generate_source_dispatch_families jsonSvc).1 rfl,
   (generate_source_dispatch_families querySvc).2.1 (Or.inl rfl),
   (generate_source_dispatch_families ec2Svc).2.1 (Or.inr rfl),
   (generate_source_dispatch_families restJsonSvc).2.2.1 rfl,
   (generate_source_dispatch_families restXmlSvc).2.2.2.1 rfl⟩

/-- C3 counterexample -- in service `Widgets` (not `Glue`), the shape name
`BatchStopJobRun` still resolves through the `Glue` override to
`GlueBatchStopJobRun` instead of the base-rule result `BatchStopJobRun`:
overrides are keyed on the normalized name alone, not on the
(service name, normalized name) pair they were recorded for. -/
theorem mutate_type_name_override_ignores_service :
    widgetsSvc.name = "Widgets" ∧
    mutate_type_name widgetsSvc "BatchStopJobRun" = "GlueBatchStopJobRun" ∧
    remove_underscores (capitalize_first "BatchStopJobRun") = "BatchStopJobRun" := by
  refine ⟨rfl, by decide, by decide⟩

/-- C3 amended -- `mutate_type_name` resolves a shape normalizing to `Error`
to the owning service's type name followed by `Error`, applies each of the
seven other collision overrides whenever the normalized name matches its
key, in every service, and maps every name whose normalization is outside
the override-key table through the base rule (capitalize first letter,
strip underscores) unchanged.  The function is pure, so the result does not
depend on any traversal order. -/
theorem mutate_type_name_base_and_error (service : Service) (type_name : String) :
    (remove_underscores (capitalize_first type_name) = "Error" →
      mutate_type_name service type_name = service.serviceTypeName ++ "Error") ∧
    (remove_underscores (capitalize_first type_name) = "CancelSpotFleetRequests" →
      mutate_type_name service type_name = "EC2CancelSpotFleetRequests") ∧
    (remove_underscores (capitalize_first type_name) = "BatchStopJobRun" →
      mutate_type_name service type_name = "GlueBatchStopJobRun") ∧
    (remove_underscores (capitalize_first type_name) = "Option" →
      mutate_type_name service type_name = "RDSOption") ∧
    (remove_underscores (capitalize_first type_name) = "BatchDeleteImportDataError" →
      mutate_type_name service type_name = "DiscoveryBatchDeleteImportDataError") ∧
    (remove_underscores (capitalize_first type_name) = "CreateFleetError" →
      mutate_type_name service type_name = "EC2CreateFleetError") ∧
    (remove_underscores (capitalize_first type_name) = "BatchDescribeMergeConflictsError" →
      mutate_type_name service type_name = "CodeCommitBatchDescribeMergeConflictsError") ∧
    (remove_underscores (capitalize_first type_name) = "BatchGetCommitsError" →
      mutate_type_name service type_name = "CodeCommitBatchGetCommitsError") ∧
    (remove_underscores (capitalize_first type_name) ∉
        ["Error", "CancelSpotFleetRequests", "BatchStopJobRun", "Option",
         "BatchDeleteImportDataError", "CreateFleetError",
         "BatchDescribeMergeConflictsError", "BatchGetCommitsError"] →
      mutate_type_name service type_name = remove_underscores (capitalize_first type_name)) := by
  refine ⟨?_, ?_, ?_, ?_, ?_, ?_, ?_, ?_, ?_⟩
  case _ => intro h; unfold mutate_type_name; rw [h]; rfl
  case _ => intro h; unfold mutate_type_name; rw [h]; rfl
  case _ => intro h; unfold mutate_type_name; rw [h]; rfl
  case _ => intro h; unfold mutate_type_name; rw [h]; rfl
  case _ => intro h; unfold mutate_type_name; rw [h]; rfl
  case _ => intro h; unfold mutate_type_name; rw [h]; rfl
  case _ => intro h; unfold mutate_type_name; rw [h]; rfl
  case _ => intro h; unfold mutate_type_name; rw [h]; rfl
  case _ =>
    intro h0
    have h := h0
    simp only [List.mem_cons, not_or] at h
    obtain ⟨h1, h2, h3, h4, h5, h6, h7, h8, -⟩ := h
    unfold mutate_type_name
    split
    · exact absurd (by assumption) h1
    · exact absurd (by assumption) h2
    · exact absurd (by assumption) h3
    · exact absurd (by assumption) h4
    · exact absurd (by assumption) h5
    · exact absurd (by assumption) h6
    · exact absurd (by assumption) h7
    · exact absurd (by assumption) h8
    · rfl

/-- C3 witness -- the amended rule evaluated at service `Widgets`, which
owns none of the overrides: `Error` resolves to `WidgetsError`, every one of
the seven other override keys resolves to its recorded override value even
in this foreign service, and the unlisted name `Widget` passes through the
base rule. -/
theorem mutate_type_name_base_and_error_witness :
    mutate_type_name widgetsSvc "Error" = "WidgetsError" ∧
    mutate_type_name widgetsSvc "CancelSpotFleetRequests" = "EC2CancelSpotFleetRequests" ∧
    mutate_type_name widgetsSvc "BatchStopJobRun" = "GlueBatchStopJobRun" ∧
    mutate_type_name widgetsSvc "Option" = "RDSOption" ∧
    mutate_type_name widgetsSvc "BatchDeleteImportDataError"
      = "DiscoveryBatchDeleteImportDataError" ∧
    mutate_type_name widgetsSvc "CreateFleetError" = "EC2CreateFleetError" ∧
    mutate_type_name widgetsSvc "BatchDescribeMergeConflictsError"
      = "CodeCommitBatchDescribeMergeConflictsError" ∧
    mutate_type_name widgetsSvc "BatchGetCommitsError" = "CodeCommitBatchGetCommitsError" ∧
    mutate_type_name widgetsSvc "Widget" = "Widget" := by
  refine ⟨?_, ?_, ?_, ?_, ?_, ?_, ?_, ?_, ?_⟩
  · have h := (mutate_type_name_base_and_error widgetsSvc "Error").1 (by decide)
    simpa using h
  · have h := (mutate_type_name_base_and_error widgetsSvc
      "CancelSpotFleetRequests").2.1 (by decide)
    simpa using h
  · have h := (mutate_type_name_base_and_error widgetsSvc
      "BatchStopJobRun").2.2.1 (by decide)
    simpa using h
  · have h := (mutate_type_name_base_and_error widgetsSvc
      "Option").2.2.2.1 (by decide)
    simpa using h
  · have h := (mutate_type_name_base_and_error widgetsSvc
      "BatchDeleteImportDataError").2.2.2.2.1 (by decide)
    simpa using h
  · have h := (mutate_type_name_base_and_error widgetsSvc
      "CreateFleetError").2.2.2.2.2.1 (by decide)
    simpa using h
  · have h := (mutate_type_name_base_and_error widgetsSvc
      "BatchDescribeMergeConflictsError").2.2.2.2.2.2.1 (by decide)
    simpa using h
  · have h := (mutate_type_name_base_and_error widgetsSvc
      "BatchGetCommitsError").2.2.2.2.2.2.2.1 (by decide)
    simpa using h
  · have h := (mutate_type_name_base_and_error widgetsSvc
      "Widget").2.2.2.2.2.2.2.2 (by decide)
    simpa using h

/-- C1 -- in the fixture service `Widgets` (neither `CodePipeline` nor shape
`ActionRevision`), the member `created` is marked required, yet
`generate_struct_fields` renders it optional: the `(service, shape, field)`
override intended for `CodePipeline.ActionRevision` fires for every field
named `created` because of the `a && b && c || d` precedence in the source. -/
theorem generate_struct_fields_created_required_renders_optional :
    widgetShape.required "created" = true ∧
    widgetsSvc.name = "Widgets" ∧
    generate_struct_fields widgetsSvc widgetShape "Widget" false "String" 1
      = some "pub created: Option<String>," := by
  refine ⟨rfl, rfl, by decide⟩

/-- C2 counterexample -- a member literally named `type` renders as the
field `type_` (the reserved word escaped with a trailing underscore), not
under any prefix: the rendered declaration differs from the prefixed form
`pub aws_type: …` that the claim describes, while the serde wire metadata
still carries `type` verbatim. -/
theorem generate_struct_fields_type_rendered_with_suffix :
    generate_struct_fields widgetsSvc typeHolderShape "TypeHolder" true "String" 1
      = some ("#[serde(rename=\"type\")]\n#[serde(skip_serializing_if=\"Option::is_none\")]\npub type_: Option<String>,") ∧
    ("pub type_: Option<String>," : String) ≠ "pub aws_type: Option<String>," := by
  refine ⟨by decide, by decide⟩

/-- C2 amended -- a structure member whose normalized field name is the
reserved word `type` is renamed by appending a fixed underscore suffix
(`type_`), not a prefix, while the serde wire-mapping metadata attached to
the field still carries the original member name verbatim. -/
theorem member_field_entry_type_member_escaped
    (service : Service) (shape : Shape) (shape_name : String) (serde_attrs : Bool)
    (timestamp_type : String) (fuel : Nat) (member_name : String) (member : Member)
    (lines : List String)
    (hentry : member_field_entry service shape shape_name serde_attrs timestamp_type fuel
        member_name member = some (some lines))
    (hsnake : to_snake_case member_name = "type") :
    generate_field_name member_name = "type_" ∧
    (serde_attrs = true → ("#[serde(rename=\"" ++ member_name ++ "\")]") ∈ lines) ∧
    ∃ rest, lines.getLast? = some ("pub type_: " ++ rest) := by
  obtain ⟨ms, rs, hms, hrs, hserde, hlast⟩ := member_field_entry_eq_some hentry
  obtain ⟨rest, hdecl⟩ := field_decl_type_escape service shape shape_name member_name rs hsnake
  exact ⟨generate_field_name_of_snake_type hsnake, hserde,
    ⟨rest, by rw [hlast, hdecl]⟩⟩

/-- C2 amended witness -- the member literally named `type` of the fixture
shape: the rename, the verbatim wire name, and the suffixed declaration,
evaluated concretely. -/
theorem member_field_entry_type_member_escaped_witness :
    to_snake_case "type" = "type" ∧
    member_field_entry widgetsSvc typeHolderShape "TypeHolder" true "String" 1 "type" typeMember
      = some (some ["#[serde(rename=\"type\")]",
          "#[serde(skip_serializing_if=\"Option::is_none\")]",
          "pub type_: Option<String>,"]) ∧
    generate_field_name "type" = "type_" ∧
    ("#[serde(rename=\"type\")]" : String) ∈
      ["#[serde(rename=\"type\")]",
       "#[serde(skip_serializing_if=\"Option::is_none\")]",
       "pub type_: Option<String>,"] ∧
    (["#[serde(rename=\"type\")]",
      "#[serde(skip_serializing_if=\"Option::is_none\")]",
      "pub type_: Option<String>,"] : List String).getLast?
      = some ("pub type_: " ++ "Option<String>,") := by
  have h := member_field_entry_type_member_escaped widgetsSvc typeHolderShape "TypeHolder"
    true "String" 1 "type" typeMember
    ["#[serde(rename=\"type\")]",
     "#[serde(skip_serializing_if=\"Option::is_none\")]",
     "pub type_: Option<String>,"]
    (by decide) (by decide)
  exact ⟨by decide, by decide, h.1, h.2.1 rfl, by decide⟩

/-- C4 counterexample -- shapes `A` and `B` reference each other, so each
contains transitively a member typed as itself, yet `generate_struct_fields`
wraps neither back-edge member in a `Box` indirection: the generated pair of
types would have unbounded size. -/
theorem generate_struct_fields_transitive_cycle_not_boxed :
    cycleShapeA.members = some [("b", refBMember)] ∧ refBMember.shape = "B" ∧
    cycleShapeB.members = some [("a", refAMember)] ∧ refAMember.shape = "A" ∧
    generate_struct_fields cycleSvc cycleShapeA "A" false "String" 5
      = some "pub b: Option<B>," ∧
    generate_struct_fields cycleSvc cycleShapeB "B" false "String" 5
      = some "pub a: Option<A>," := by
  refine ⟨rfl, rfl, rfl, rfl, by decide, by decide⟩

/-- C4 amended -- `generate_struct_fields` boxes exactly the directly
self-referential members: when the member's computed host type equals the
enclosing generated type name, the field is `Box<T>` if required and
`Box<Option<T>>` otherwise; when it differs, the declaration is one of the
box-free forms, so no owning indirection is inserted for merely transitive
cycles. -/
theorem member_field_entry_direct_self_reference
    (service : Service) (shape : Shape) (shape_name : String) (serde_attrs : Bool)
    (timestamp_type : String) (fuel : Nat) (member_name : String) (member : Member)
    (ms : Shape) (rs : String) (lines : List String)
    (hms : service.shape_for_member member = some ms)
    (hrs : get_rust_type fuel service member.shape ms member.streaming timestamp_type = some rs)
    (hentry : member_field_entry service shape shape_name serde_attrs timestamp_type fuel
        member_name member = some (some lines)) :
    (shape_name = rs →
      lines.getLast? = some (if shape.required member_name
        then "pub " ++ generate_field_name member_name ++ ": Box<" ++ rs ++ ">,"
        else "pub " ++ generate_field_name member_name ++ ": Box<Option<" ++ rs ++ ">>,")) ∧
    (shape_name ≠ rs → ∀ d, lines.getLast? = some d →
      d = "pub " ++ generate_field_name member_name ++ ": Option<" ++ rs ++ ">," ∨
      d = "pub " ++ generate_field_name member_name
            ++ ": Option<::std::collections::HashMap<String, Option<String>>>," ∨
      d = "pub " ++ generate_field_name member_name ++ ": " ++ rs ++ ",") := by
  obtain ⟨ms', rs', hms', hrs', hserde, hlast⟩ := member_field_entry_eq_some hentry
  rw [hms] at hms'
  have hmseq : ms = ms' := Option.some.inj hms'
  subst hmseq
  rw [hrs] at hrs'
  have hrseq : rs = rs' := Option.some.inj hrs'
  subst hrseq
  constructor
  · intro hself
    rw [hlast]
    unfold field_decl
    rw [if_pos hself]
    by_cases hreq : shape.required member_name = true
    · rw [if_pos hreq, if_pos hreq]
    · rw [if_neg hreq, if_neg hreq,
        if_neg (fun hx => generate_field_name_ne_type member_name hx)]
  · intro hne d hd
    rw [hlast] at hd
    have hd' : field_decl service shape shape_name member_name rs = d := Option.some.inj hd
    subst hd'
    unfold field_decl
    rw [if_neg hne]
    by_cases hc1 : (service.name = "CodePipeline" ∧ shape_name = "ActionRevision"
        ∧ generate_field_name member_name = "revision_change_id")
        ∨ generate_field_name member_name = "created"
    · rw [if_pos hc1]
      exact Or.inl rfl
    · rw [if_neg hc1]
      by_cases hc2 : service.name = "Amazon Lex Runtime Service"
          ∧ shape_name = "PostTextResponse" ∧ generate_field_name member_name = "slots"
      · rw [if_pos hc2]
        exact Or.inr (Or.inl rfl)
      · rw [if_neg hc2]
        by_cases hreq : shape.required member_name = true
        · rw [if_pos hreq]
          exact Or.inr (Or.inr rfl)
        · rw [if_neg hreq,
            if_neg (fun hx => generate_field_name_ne_type member_name hx)]
          exact Or.inl rfl

/-- C4 amended witness -- the directly self-referential `TreeNode` fixture:
its optional `child` member is rendered as `Box<Option<TreeNode>>`. -/
theorem member_field_entry_direct_self_reference_witness :
    treeSvc.shape_for_member childMember = some treeShape ∧
    get_rust_type 1 treeSvc childMember.shape treeShape childMember.streaming "String"
      = some "TreeNode" ∧
    member_field_entry treeSvc treeShape "TreeNode" false "String" 1 "child" childMember
      = some (some ["pub child: Box<Option<TreeNode>>,"]) ∧
    (["pub child: Box<Option<TreeNode>>,"] : List String).getLast?
      = some (if treeShape.required "child"
        then "pub " ++ generate_field_name "child" ++ ": Box<" ++ "TreeNode" ++ ">,"
        else "pub " ++ generate_field_name "child" ++ ": Box<Option<" ++ "TreeNode" ++ ">>,") := by
  have h := (member_field_entry_direct_self_reference treeSvc treeShape "TreeNode" false
    "String" 1 "child" childMember treeShape "TreeNode"
    ["pub child: Box<Option<TreeNode>>,"]
    (by decide) (by decide) (by decide)).1 rfl
  exact ⟨by decide, by decide, by decide, h⟩

/-- C7 -- `generate_types` emits no ordinary struct for a reachable
exception-flagged shape unless the owning service is named `Kinesis`; under
`Kinesis` such a shape goes through ordinary struct generation like any
other (a structure shape whose mutated name is not `String` gets a data
type, alongside the error variant built by the error-type generator). -/
theorem generate_types_exception_allowlist (service : Service) (name : String) (shape : Shape)
    (hget : service.get_shape name = some shape)
    (hexc : shape.exception = true) :
    (service.name ≠ "Kinesis" → name ∉ generated_struct_types service) ∧
    (name ∈ generated_struct_types service ↔
      service.name = "Kinesis" ∧ name ∈ find_shapes_to_generate service ∧
      shape.shape_type = ShapeType.Structure ∧ mutate_type_name service name ≠ "String") := by
  have hfilter : ∀ m : String, m ∈ generated_struct_types service ↔
      m ∈ find_shapes_to_generate service ∧ struct_emitted_for service m = true := by
    intro m
    exact List.mem_filter
  by_cases hk : service.name = "Kinesis"
  · have hemit : struct_emitted_for service name
        = (shape.shape_type == ShapeType.Structure
            && mutate_type_name service name != "String") := by
      unfold struct_emitted_for
      rw [hget]
      simp [hexc, hk]
    constructor
    · intro hne
      exact absurd hk hne
    · rw [hfilter, hemit]
      simp only [Bool.and_eq_true, beq_iff_eq, bne_iff_ne, ne_eq]
      constructor
      · rintro ⟨hmem, hty, hns⟩
        exact ⟨hk, hmem, hty, hns⟩
      · rintro ⟨-, hmem, hty, hns⟩
        exact ⟨hmem, hty, hns⟩
  · have hemit : struct_emitted_for service name = false := by
      unfold struct_emitted_for
      rw [hget]
      simp [hexc, hk]
    constructor
    · intro _
      rw [hfilter, hemit]
      simp
    · rw [hfilter, hemit]
      simp [hk]

/-- C7 witness -- the exception shape `Boom`, reachable in both fixture
services: no struct is emitted for it outside `Kinesis`, and a struct is
emitted for it under `Kinesis`. -/
theorem generate_types_exception_allowlist_witness :
    kinesisSvc.get_shape "Boom" = some boomShape ∧
    boomShape.exception = true ∧
    "Boom" ∈ generated_struct_types kinesisSvc ∧
    nonKinesisSvc.get_shape "Boom" = some boomShape ∧
    "Boom" ∉ generated_struct_types nonKinesisSvc := by
  have hmem : "Boom" ∈ find_shapes_to_generate kinesisSvc := by
    rw [find_shapes_to_generate, Finset.mem_sort, List.mem_toFinset]
    simp [collectShapes, kinesisSvc, Operation.seedRefs, visitShapes, lookupShape,
      boomShape, childRefs, List.find?]
  refine ⟨rfl, rfl, ?_, rfl, ?_⟩
  · exact (generate_types_exception_allowlist kinesisSvc "Boom" boomShape rfl rfl).2.mpr
      ⟨rfl, hmem, rfl, by decide⟩
  · exact (generate_types_exception_allowlist nonKinesisSvc "Boom" boomShape rfl rfl).1
      (by decide)

/-- The trait list of `generate_struct` written as one append chain. -/
theorem generate_struct_derives_eq (shape : Shape)
    (streaming serialized deserialized : Bool) (st dt : Option String) :
    generate_struct_derives shape streaming serialized deserialized st dt =
      ["Default", "Debug"]
      ++ (if !streaming && (streaming_members shape).isEmpty then ["Clone", "PartialEq"] else [])
      ++ (if serialized then st.toList else [])
      ++ (if deserialized then dt.toList else []) := by
  unfold generate_struct_derives
  cases streaming <;> cases hE : (streaming_members shape).isEmpty <;>
    cases serialized <;> cases deserialized <;> cases st <;> cases dt <;>
      simp [Option.toList]

/-- C10 -- a generated structure derives `Clone` and `PartialEq` exactly
when neither the structure itself (`is_streaming_shape`) nor any of its
members is streaming; every streaming-involved structure derives only
`Default` and `Debug` plus the protocol's (de)serialization traits, which
are assumed distinct from `Clone`/`PartialEq`. -/
theorem generate_struct_derives_clone_partialeq (service : Service) (name : String)
    (shape : Shape) (serialized deserialized : Bool) (st dt : Option String)
    (hst : ∀ t, st = some t → t ≠ "Clone" ∧ t ≠ "PartialEq")
    (hdt : ∀ t, dt = some t → t ≠ "Clone" ∧ t ≠ "PartialEq") :
    (("Clone" ∈ generate_struct_derives shape (is_streaming_shape service name)
          serialized deserialized st dt ∧
      "PartialEq" ∈ generate_struct_derives shape (is_streaming_shape service name)
          serialized deserialized st dt) ↔
      (is_streaming_shape service name = false ∧ streaming_members shape = [])) ∧
    (is_streaming_shape service name = true ∨ streaming_members shape ≠ [] →
      generate_struct_derives shape (is_streaming_shape service name)
          serialized deserialized st dt
        = ["Default", "Debug"] ++ (if serialized then st.toList else [])
          ++ (if deserialized then dt.toList else [])) := by
  constructor
  · constructor
    · rintro ⟨hc, -⟩
      rw [generate_struct_derives_eq] at hc
      simp only [List.mem_append] at hc
      rcases hc with ((hc | hc) | hc) | hc
      · simp at hc
      · by_cases hcond : (!(is_streaming_shape service name)
            && (streaming_members shape).isEmpty) = true
        · rw [Bool.and_eq_true] at hcond
          obtain ⟨hs, he⟩ := hcond
          rw [Bool.not_eq_true'] at hs
          exact ⟨hs, List.isEmpty_iff.1 he⟩
        · rw [if_neg (by simpa using hcond)] at hc
          simp at hc
      · revert hc
        split
        · cases st with
          | none => simp
          | some t =>
            intro hc
            simp only [Option.toList, List.mem_singleton] at hc
            exact absurd hc.symm (hst t rfl).1
        · simp
      · revert hc
        split
        · cases dt with
          | none => simp
          | some t =>
            intro hc
            simp only [Option.toList, List.mem_singleton] at hc
            exact absurd hc.symm (hdt t rfl).1
        · simp
    · rintro ⟨hs, he⟩
      have hcond : (!(is_streaming_shape service name)
          && (streaming_members shape).isEmpty) = true := by
        simp [hs, he]
      rw [generate_struct_derives_eq]
      rw [if_pos hcond]
      constructor <;> simp
  · intro h
    have hcond : (!(is_streaming_shape service name)
        && (streaming_members shape).isEmpty) = false := by
      rcases h with h | h
      · simp [h]
      · simp [List.isEmpty_iff, h]
    rw [generate_struct_derives_eq, if_neg (by simp [hcond])]
    simp

/-- C10 witness -- the streaming `Payload` fixture shape: its generated type
derives only `Default`, `Debug` and the protocol's `Serialize` trait. -/
theorem generate_struct_derives_clone_partialeq_witness :
    is_streaming_shape streamSvc "Payload" = true ∧
    generate_struct_derives blobShape (is_streaming_shape streamSvc "Payload")
        true false (some "Serialize") none
      = ["Default", "Debug", "Serialize"] := by
  have h := (generate_struct_derives_clone_partialeq streamSvc "Payload" blobShape
    true false (some "Serialize") none
    (fun t ht => by cases ht; exact ⟨by decide, by decide⟩)
    (fun t ht => by cases ht)).2 (Or.inl (by decide))
  exact ⟨by decide, by simpa using h⟩

end Rusoto
